import Mathlib

/-!
Verification of the project-archiver pipeline (`project_tools/combine_code.py`).

The Python module walks a project root with `os.walk(topdown=True)`, prunes
excluded directories in place before recursion, classifies each file
(name exclusion, `.ipynb` structured document, extension exclusion,
null-byte binary sniff), extracts content (verbatim text read or notebook
cell extraction), and writes every non-empty trimmed content to a single
output stream wrapped in relative-path tags, counting processed and
skipped files.

The shallow embedding below mirrors that code:

* a file is a `FileData`: its raw bytes (for the binary sniff), its text
  as decoded with `errors="replace"` (which never raises), a flag for an
  OSError while opening for the sniff, a flag for an OSError while opening
  for the text read, and the outcome of opening-and-JSON-parsing it as a
  notebook (`none` models any exception inside `process_notebook`, which
  the Python code catches and turns into `None`);
* a directory tree is `Dir`, holding its files and subdirectories as
  association lists in raw listing order (the order `os.walk` reports,
  which the code then sorts);
* `combineDir`/`combineSubdirs` mirror the walk: subdirectories failing
  `keepDir` are pruned before the recursive call ever happens, and the
  per-directory output is assembled in ascending name order exactly as the
  code's `dirnames.sort()` / `sorted(filenames)` produce (each
  subdirectory's result only depends on its own subtree, so recursing in
  listing order and ordering the finished results by name yields the same
  archive as recursing in sorted order);
* the output stream is modelled as the returned string; `openFails = true`
  models an `IOError` when opening the output file, which the code catches
  at the end of `combine_project_files`, logging an error and returning
  without a summary. `main` never propagates an exception from
  `combine_project_files` (all are caught inside), so the interpreter
  exit status of a completed `main` is 0: `mainExitCode` records this.

String primitives from Python are re-implemented over `List Char` so that
they compute inside the kernel: `pyStrip` is `str.strip()` (the six ASCII
whitespace characters), `lowerStr` is `str.lower()` (ASCII case folding,
which is all the extension comparisons need), `suffix` is
`pathlib.PurePath.suffix` on a basename, and `strEndsWith` is
`str.endswith`.
-/

/-- Python `str.strip()` default whitespace characters (ASCII part). -/
def isSpaceChar (c : Char) : Bool :=
  c == ' ' || c == '\t' || c == '\n' || c == '\r' || c == '\x0b' || c == '\x0c'

/-- Python `str.strip()`: drop leading and trailing whitespace. -/
def pyStrip (s : String) : String :=
  String.mk (((s.toList.dropWhile isSpaceChar).reverse.dropWhile isSpaceChar).reverse)

/-- Python `str.lower()` restricted to ASCII case folding. -/
def lowerStr (s : String) : String := String.mk (s.toList.map Char.toLower)

/-- Python `str.endswith`. -/
def strEndsWith (s pat : String) : Bool := pat.toList.isSuffixOf s.toList

/-- Index of the last '.' in a character list, if any. -/
def lastDotIdx (cs : List Char) : Option Nat :=
  ((cs.enum.filter (fun p => p.2 == '.')).getLast?).map (fun p => p.1)

/-- Python `pathlib.PurePath(name).suffix` for a basename `name`:
the part from the last dot on, provided that dot is neither the first
character nor the last one; otherwise the empty string. -/
def suffix (name : String) : String :=
  match lastDotIdx name.toList with
  | none => ""
  | some i =>
    if 0 < i ∧ i < name.length - 1 then String.mk (name.toList.drop i) else ""

/-- Does `pat` lead (start) the list? -/
def leadsWith : List Char → List Char → Bool
| [], _ => true
| _ :: _, [] => false
| p :: ps, c :: cs => p == c && leadsWith ps cs

/-- Does `p` occur as a contiguous run somewhere in the list? -/
def occursIn (p : List Char) : List Char → Bool
| [] => leadsWith p []
| c :: cs => leadsWith p (c :: cs) || occursIn p cs

/-- Substring test used to state facts about the produced archive. -/
def strOccurs (pat s : String) : Bool := occursIn pat.toList s.toList

/-- Number of (possibly overlapping) occurrences of `p` in the list. -/
def countOccur (p : List Char) : List Char → Nat
| [] => 0
| c :: cs => (if leadsWith p (c :: cs) then 1 else 0) + countOccur p cs

/-! Configuration constants, copied from the module. -/

def OUTPUT_FILENAME : String := "full_project_source.txt"

/-- Directories to exclude if they appear anywhere in the project structure. -/
def EXCLUDE_DIRS_ANYWHERE : List String :=
  [".git", "__pycache__", ".pytest_cache", "cache", "outputs", ".vscode",
   ".idea", "venv", ".venv", "env", "build", "dist", "renv", "node_modules"]

/-- Directories to exclude only if they are in the project root directory. -/
def EXCLUDE_DIRS_ROOT_ONLY : List String := ["data"]

/-- Directory name patterns to exclude (suffix match). -/
def EXCLUDE_DIR_PATTERNS : List String := [".egg-info"]

/-- File extensions to exclude. -/
def EXCLUDE_EXTENSIONS : List String :=
  [".pyc", ".pyo", ".so", ".dll", ".exe", ".png", ".jpg", ".jpeg", ".gif",
   ".ico", ".svg", ".parquet", ".arrow", ".feather", ".csv", ".zip", ".gz",
   ".tar", ".rar", ".7z", ".db", ".sqlite3", ".pdf", ".docx", ".xlsx",
   ".swp", ".swo"]

/-- Specific filenames to exclude. -/
def EXCLUDE_FILES : List String :=
  [OUTPUT_FILENAME, ".DS_Store", "Thumbs.db", "celerybeat-schedule", ".env"]

/-! Notebook (structured document) model, mirroring `process_notebook`. -/

/-- A notebook cell's `source` field: either a single string or a list of
string fragments. -/
inductive CellSource : Type where
| str : String → CellSource
| list : List String → CellSource
deriving DecidableEq

/-- One cell of a parsed notebook: `cell.get("cell_type")` and
`cell.get("source", [])` already normalised to `CellSource`. -/
structure Cell where
  cell_type : Option String
  source : CellSource
deriving DecidableEq

/-- Python: `"".join(source_list) if isinstance(source_list, list) else str(source_list)`. -/
def joinSource : CellSource → String
| .str s => s
| .list l => String.join l

/-- The cell loop of `process_notebook`: enumerate cells from index 0,
skip cells whose joined source is empty after stripping, label code and
markdown cells with their 1-based index, ignore other cell types, and
join the collected parts with a newline. -/
def processCells (cells : List Cell) : String :=
  String.intercalate "\n" (cells.enum.filterMap (fun ic =>
    let source := joinSource ic.2.source
    if pyStrip source = "" then none
    else if ic.2.cell_type = some "code" then
      some ("# --- Code Cell " ++ toString (ic.1 + 1) ++ " ---\n" ++ source ++ "\n")
    else if ic.2.cell_type = some "markdown" then
      some ("# --- Markdown Cell " ++ toString (ic.1 + 1) ++ " ---\n" ++ source ++ "\n")
    else none))

/-! File model and classification, mirroring `is_likely_text_file` and the
per-file logic of `combine_project_files`. -/

/-- One file on disk, as the Python code can observe it. -/
structure FileData where
  /-- Raw bytes, read for the 1024-byte binary sniff. -/
  bytes : List Nat
  /-- Full decoded text (`encoding="utf-8", errors="replace"` never raises). -/
  text : String
  /-- An OSError was raised opening the file for the binary sniff
  (caught inside `is_likely_text_file`). -/
  sniffErr : Bool
  /-- An OSError was raised opening/reading the file for text extraction
  (caught by the per-file handler in `combine_project_files`). -/
  readErr : Bool
  /-- Outcome of `open` + `json.load` + cell normalisation when the file is
  processed as a notebook; `none` models any exception inside
  `process_notebook`. -/
  nb : Option (List Cell)
deriving DecidableEq

/-- `process_notebook`: on any exception a warning is logged and `None`
is returned; otherwise the cell loop's result. -/
def process_notebook (f : FileData) : Option String :=
  match f.nb with
  | none => none
  | some cells => some (processCells cells)

/-- `is_likely_text_file`: excluded extension, then the null-byte sniff of
the first 1024 bytes; an OSError while sniffing yields `false`. -/
def is_likely_text_file (name : String) (f : FileData) : Bool :=
  if lowerStr (suffix name) ∈ EXCLUDE_EXTENSIONS then false
  else if f.sniffErr then false
  else !((f.bytes.take 1024).contains 0)

/-- What one file contributes to the run: the text written to the output
stream and the deltas of the two counters. -/
structure FileResult where
  out : String
  processed : Nat
  skipped : Nat
deriving DecidableEq

/-- Lines 222-232: write the tagged block if content is present and
non-empty after stripping (counting it processed), else count it skipped. -/
def emitContent (rel : String) (content : Option String) : FileResult :=
  match content with
  | some c =>
    if pyStrip c ≠ "" then
      ⟨"<" ++ rel ++ ">\n" ++ pyStrip c ++ "\n</" ++ rel ++ ">\n\n", 1, 0⟩
    else ⟨"", 0, 1⟩
  | none => ⟨"", 0, 1⟩

/-- Relative-path join with forward slashes (`Path.relative_to(...).as_posix()`). -/
def relJoin (pref name : String) : String :=
  if pref = "" then name else pref ++ "/" ++ name

/-- Lines 189-238: one filename of one directory. A name in the excluded
set is passed over before any classification, touching neither counter.
Then: `.ipynb` goes to `process_notebook`; a likely text file is read (an
OSError while reading is caught by the per-file handler and counted as
skipped); everything else is counted skipped outright. -/
def processFile (ex : List String) (rel : String) (name : String) (f : FileData) :
    FileResult :=
  if name ∈ ex then ⟨"", 0, 0⟩
  else if lowerStr (suffix name) = ".ipynb" then
    emitContent rel (process_notebook f)
  else if is_likely_text_file name f then
    if f.readErr then ⟨"", 0, 1⟩
    else emitContent rel (some f.text)
  else ⟨"", 0, 1⟩

/-- A directory tree: files and subdirectories in raw listing order. -/
inductive Dir : Type where
| mk : List (String × FileData) → List (String × Dir) → Dir

/-- Lines 172-184: keep a child directory only if it survives the three
pruning rules (excluded anywhere; excluded at root when the current
directory is the project root; excluded name suffix pattern). -/
def keepDir (atRoot : Bool) (d : String) : Bool :=
  if d ∈ EXCLUDE_DIRS_ANYWHERE then false
  else if d ∈ EXCLUDE_DIRS_ROOT_ONLY ∧ atRoot = true then false
  else if EXCLUDE_DIR_PATTERNS.any (fun p => strEndsWith d p) then false
  else true

/-- Concatenate per-file/per-directory contributions in order, summing
the counters. -/
def mergeResults : List FileResult → FileResult
| [] => ⟨"", 0, 0⟩
| r :: rs =>
  let m := mergeResults rs
  ⟨r.out ++ m.out, r.processed + m.processed, r.skipped + m.skipped⟩

mutual
/-- The `os.walk(topdown=True)` loop: the current directory's sorted
filenames are processed first, then each surviving subdirectory in
ascending name order. Pruned subdirectories are never recursed into:
`combineSubdirs` drops them before the recursive call. -/
def combineDir (ex : List String) (pref : String) (atRoot : Bool) : Dir → FileResult
| .mk files subdirs =>
  let sortedFiles := List.insertionSort (fun a b => a.1 ≤ b.1) files
  let fileResults := sortedFiles.map
    (fun pf => processFile ex (relJoin pref pf.1) pf.1 pf.2)
  let subResults := combineSubdirs ex pref atRoot subdirs
  let sortedSub := List.insertionSort (fun a b => a.1 ≤ b.1) subResults
  mergeResults (fileResults ++ sortedSub.map (fun p => p.2))

/-- Recurse into exactly the child directories that pass `keepDir`; an
excluded child's subtree is never visited. -/
def combineSubdirs (ex : List String) (pref : String) (atRoot : Bool) :
    List (String × Dir) → List (String × FileResult)
| [] => []
| (n, d) :: rest =>
  if keepDir atRoot n then
    (n, combineDir ex (relJoin pref n) false d) :: combineSubdirs ex pref atRoot rest
  else
    combineSubdirs ex pref atRoot rest
end

/-- The fixed archive header written before any file block. -/
def archiveHeader : String :=
  "--- Project Source Code Archive ---\n\n" ++
  "This file contains the concatenated source code of the project, " ++
  "with each file wrapped in tags indicating its relative path.\n\n"

/-- Outcome of one `combine_project_files` call. `ok = false` is the
caught-IOError path (lines 247-248): the error is logged, no summary is
reported, and the function returns normally. -/
structure RunResult where
  ok : Bool
  out : String
  processed : Nat
  skipped : Nat
deriving DecidableEq

/-- `combine_project_files`: add the chosen output filename to the
excluded filenames, open the output stream (`openFails = true` models an
IOError here, caught at lines 247-248), write the header, walk the tree,
and report the two counters. -/
def combine_project_files (root : Dir) (output_filename : String)
    (openFails : Bool) : RunResult :=
  let ex := output_filename :: EXCLUDE_FILES
  if openFails then ⟨false, "", 0, 0⟩
  else
    let r := combineDir ex "" true root
    ⟨true, archiveHeader ++ r.out, r.processed, r.skipped⟩

/-- Interpreter exit status of `main`: `combine_project_files` catches
IOError and every other Exception internally (lines 247-250), so the call
returns normally in all modelled cases and the process exits with 0. -/
def mainExitCode (root : Dir) (output_filename : String) (openFails : Bool) : Nat :=
  let _ := combine_project_files root output_filename openFails
  0

/-! Concrete trees and files used by the scenario claims. -/

/-- An ordinary readable ASCII text file with the given content. -/
def fileOf (s : String) : FileData := ⟨s.toList.map Char.toNat, s, false, false, none⟩

/-- The end-to-end scenario tree: `root/a/b.txt` = "hello",
`root/.git/ignored.txt` = "secret", `root/data/x.txt` = "data". -/
def c1Tree : Dir := .mk []
  [("a", .mk [("b.txt", fileOf "hello")] []),
   (".git", .mk [("ignored.txt", fileOf "secret")] []),
   ("data", .mk [("x.txt", fileOf "data")] [])]

/-- The three cells of the structured-document scenario. -/
def c3cells : List Cell :=
  [⟨some "code", .str "x=1"⟩, ⟨some "markdown", .str ""⟩,
   ⟨some "code", .list ["print(", "x)"]⟩]

/-! Helper lemmas. -/

theorem processFile_mem_exclude {ex : List String} {rel name : String} {f : FileData}
    (h : name ∈ ex) : processFile ex rel name f = ⟨"", 0, 0⟩ := by
  simp [processFile, h]

theorem keepDir_eq_false_of_anywhere {name : String}
    (h : name ∈ EXCLUDE_DIRS_ANYWHERE) (atRoot : Bool) : keepDir atRoot name = false := by
  simp [keepDir, h]

theorem combineSubdirs_append (ex : List String) (pref : String) (atRoot : Bool)
    (l1 l2 : List (String × Dir)) :
    combineSubdirs ex pref atRoot (l1 ++ l2)
      = combineSubdirs ex pref atRoot l1 ++ combineSubdirs ex pref atRoot l2 := by
  induction l1 with
  | nil => rfl
  | cons hd tl ih =>
    obtain ⟨n, d⟩ := hd
    cases hk : keepDir atRoot n <;> simp [combineSubdirs, hk, ih]

theorem combineDir_prune (ex : List String) (pref : String) (atRoot : Bool)
    (files : List (String × FileData)) (l1 l2 : List (String × Dir))
    (name : String) (sub : Dir) (h : keepDir atRoot name = false) :
    combineDir ex pref atRoot (.mk files (l1 ++ (name, sub) :: l2))
      = combineDir ex pref atRoot (.mk files (l1 ++ l2)) := by
  simp [combineDir, combineSubdirs_append, combineSubdirs, h]

instance : IsTotal (String × FileData) (fun a b => a.1 ≤ b.1) :=
  ⟨fun a b => le_total a.1 b.1⟩

instance : IsTrans (String × FileData) (fun a b => a.1 ≤ b.1) :=
  ⟨fun _ _ _ h1 h2 => le_trans h1 h2⟩

theorem orderedInsert_split (a : String × FileData) (M : List (String × FileData)) :
    ∃ P S, List.orderedInsert (fun a b => a.1 ≤ b.1) a M = P ++ a :: S ∧ M = P ++ S := by
  induction M with
  | nil => exact ⟨[], [], rfl, rfl⟩
  | cons b M ih =>
    by_cases h : a.1 ≤ b.1
    · refine ⟨[], b :: M, ?_, rfl⟩
      simp only [List.orderedInsert, List.nil_append]
      rw [if_pos h]
    · obtain ⟨P, S, h1, h2⟩ := ih
      refine ⟨b :: P, S, ?_, by rw [h2, List.cons_append]⟩
      simp only [List.orderedInsert, List.append_eq]
      rw [if_neg h, h1, List.cons_append]

theorem orderedInsert_congr (a x : String × FileData) :
    ∀ (P S : List (String × FileData)),
      List.Sorted (fun a b => a.1 ≤ b.1) (P ++ x :: S) →
      ∃ P' S',
        List.orderedInsert (fun a b => a.1 ≤ b.1) a (P ++ x :: S) = P' ++ x :: S'
        ∧ List.orderedInsert (fun a b => a.1 ≤ b.1) a (P ++ S) = P' ++ S' := by
  intro P
  induction P with
  | nil =>
    intro S hs
    by_cases h : a.1 ≤ x.1
    · refine ⟨[a], S, ?_, ?_⟩
      · simp only [List.nil_append, List.orderedInsert]
        rw [if_pos h]
        rfl
      · cases S with
        | nil => rfl
        | cons s S2 =>
          have hxs : x.1 ≤ s.1 :=
            (List.sorted_cons.mp hs).1 s (List.mem_cons_self s S2)
          simp only [List.nil_append, List.orderedInsert]
          rw [if_pos (le_trans h hxs)]
          rfl
    · refine ⟨[], List.orderedInsert (fun a b => a.1 ≤ b.1) a S, ?_, by rfl⟩
      simp only [List.nil_append, List.orderedInsert, List.append_eq]
      rw [if_neg h]
  | cons b P ih =>
    intro S hs
    by_cases h : a.1 ≤ b.1
    · refine ⟨a :: b :: P, S, ?_, ?_⟩
      · simp only [List.cons_append, List.orderedInsert, List.append_eq]
        rw [if_pos h]
      · simp only [List.cons_append, List.orderedInsert, List.append_eq]
        rw [if_pos h]
    · obtain ⟨P', S', h1, h2⟩ := ih S (List.sorted_cons.mp hs).2
      refine ⟨b :: P', S', ?_, ?_⟩
      · simp only [List.cons_append, List.orderedInsert, List.append_eq]
        rw [if_neg h, h1]
      · simp only [List.cons_append, List.orderedInsert, List.append_eq]
        rw [if_neg h, h2]

theorem insertionSort_split (x : String × FileData) (l2 : List (String × FileData)) :
    ∀ l1, ∃ P S,
      List.insertionSort (fun a b => a.1 ≤ b.1) (l1 ++ x :: l2) = P ++ x :: S
      ∧ List.insertionSort (fun a b => a.1 ≤ b.1) (l1 ++ l2) = P ++ S := by
  intro l1
  induction l1 with
  | nil =>
    obtain ⟨P, S, h1, h2⟩ :=
      orderedInsert_split x (List.insertionSort (fun a b => a.1 ≤ b.1) l2)
    exact ⟨P, S, by simpa using h1, by simpa using h2⟩
  | cons a t ih =>
    obtain ⟨P, S, h1, h2⟩ := ih
    have hsorted : List.Sorted (fun a b => a.1 ≤ b.1) (P ++ x :: S) := by
      rw [← h1]
      exact List.sorted_insertionSort (fun a b => a.1 ≤ b.1) (t ++ x :: l2)
    obtain ⟨P', S', g1, g2⟩ := orderedInsert_congr a x P S hsorted
    refine ⟨P', S', ?_, ?_⟩
    · rw [List.cons_append, List.insertionSort, h1]
      exact g1
    · rw [List.cons_append, List.insertionSort, h2]
      exact g2

theorem mergeResults_middle_neutral (A B : List FileResult) :
    mergeResults (A ++ ⟨"", 0, 0⟩ :: B) = mergeResults (A ++ B) := by
  induction A with
  | nil =>
    show mergeResults (⟨"", 0, 0⟩ :: B) = mergeResults B
    simp [mergeResults, String.empty_append]
  | cons r A ih =>
    simp [mergeResults, ih]

set_option maxRecDepth 100000

/-! Claim theorems. -/

/-- C1, counterexample: on the scenario tree (`a/b.txt` = "hello",
`.git/ignored.txt` = "secret", `data/x.txt` = "data") the run reports
`filesProcessed = 1` but `filesSkipped = 0`, not `filesSkipped ≥ 2`: the
files under the pruned `.git` and `data` directories are never visited,
so they are never counted as skipped. -/
theorem c1_filesSkipped_counterexample :
    (combine_project_files c1Tree OUTPUT_FILENAME false).processed = 1
    ∧ (combine_project_files c1Tree OUTPUT_FILENAME false).skipped = 0
    ∧ ¬ 2 ≤ (combine_project_files c1Tree OUTPUT_FILENAME false).skipped := by
  decide

/-- C1, amended: the scenario run writes exactly the header plus the one
block tagged `a/b.txt` containing `hello`; no output mentions `.git`,
`data`, `secret` or `x.txt`; and the summary is `filesProcessed = 1`,
`filesSkipped = 0`. -/
theorem c1_amended_run :
    combine_project_files c1Tree OUTPUT_FILENAME false
      = ⟨true, archiveHeader ++ "<a/b.txt>\nhello\n</a/b.txt>\n\n", 1, 0⟩
    ∧ strOccurs "<a/b.txt>\nhello\n</a/b.txt>"
        (combine_project_files c1Tree OUTPUT_FILENAME false).out = true
    ∧ strOccurs ".git" (combine_project_files c1Tree OUTPUT_FILENAME false).out = false
    ∧ strOccurs "data" (combine_project_files c1Tree OUTPUT_FILENAME false).out = false
    ∧ strOccurs "secret" (combine_project_files c1Tree OUTPUT_FILENAME false).out = false
    ∧ strOccurs "x.txt" (combine_project_files c1Tree OUTPUT_FILENAME false).out = false := by
  decide

/-- C2, counterexample: when opening the output stream fails, the IOError
is caught inside `combine_project_files` (error logged, run aborted, no
summary), but `main` then returns normally, so the process exit status is
0 — not the non-zero outcome the claim requires. -/
theorem c2_exit_counterexample :
    (combine_project_files (.mk [] []) OUTPUT_FILENAME true).ok = false
    ∧ mainExitCode (.mk [] []) OUTPUT_FILENAME true = 0 := by
  decide

/-- C2, amended: if opening the output stream fails, the run aborts with a
reported error and no summary, but the process still exits 0; every run
without such a failure completes normally and also exits 0, however many
files were skipped. -/
theorem c2_amended_outcome (t : Dir) (ofn : String) (b : Bool) :
    mainExitCode t ofn b = 0
    ∧ ((combine_project_files t ofn b).ok = false ↔ b = true) := by
  refine ⟨rfl, ?_⟩
  cases b <;> simp [combine_project_files]

/-- C3, counterexample: the claim asserts each emitted block has the form
`--- Code Cell {i} ---` followed by the source text, but the code (lines
114/116) emits `# --- Code Cell {i} ---`: on the scenario cells the
extraction's first block starts with `# `, not with the claimed label
form. -/
theorem c3_label_counterexample :
    leadsWith "--- Code Cell 1 ---".toList (processCells c3cells).toList = false
    ∧ leadsWith "# --- Code Cell 1 ---".toList (processCells c3cells).toList = true := by
  decide

/-- C3, amended: on cells `[code "x=1", markdown "", code ["print(", "x)"]]`
the extraction yields exactly two labeled blocks and no block for the
empty markdown cell; each emitted block has the form
`# --- Code Cell {i} ---` or `# --- Markdown Cell {i} ---` (i the cell's
1-based position in original order) followed by the source text, list
sources joined in order with no separator: the first block is labeled
`# --- Code Cell 1 ---` with `x=1` and the second `# --- Code Cell 3 ---`
with `print(x)`. The first conjunct gives the extracted text exactly. -/
theorem c3_notebook_blocks :
    processCells c3cells
      = "# --- Code Cell 1 ---\nx=1\n\n# --- Code Cell 3 ---\nprint(x)\n"
    ∧ countOccur "Cell".toList (processCells c3cells).toList = 2
    ∧ strOccurs "# --- Code Cell 1 ---\nx=1" (processCells c3cells) = true
    ∧ strOccurs "# --- Code Cell 3 ---\nprint(x)" (processCells c3cells) = true
    ∧ strOccurs "Markdown" (processCells c3cells) = false
    ∧ strOccurs "Cell 2" (processCells c3cells) = false := by
  decide

/-- C4: a subdirectory whose name is in the excluded-anywhere set is
dropped before recursion, wherever it sits in the listing and at any
level of the walk (`pref`, `atRoot` arbitrary): the run's result does not
depend on the excluded directory's entire subtree `sub`, so no file under
it can appear in the output or touch the counters. -/
theorem c4_anywhere_pruned (ex : List String) (pref : String) (atRoot : Bool)
    (files : List (String × FileData)) (l1 l2 : List (String × Dir))
    (name : String) (sub : Dir) (h : name ∈ EXCLUDE_DIRS_ANYWHERE) :
    combineDir ex pref atRoot (.mk files (l1 ++ (name, sub) :: l2))
      = combineDir ex pref atRoot (.mk files (l1 ++ l2)) :=
  combineDir_prune ex pref atRoot files l1 l2 name sub
    (keepDir_eq_false_of_anywhere h atRoot)

/-- C4 witness: a `.git` directory with a secret file is pruned at the
root of a concrete tree. -/
theorem c4_anywhere_pruned_witness :
    ".git" ∈ EXCLUDE_DIRS_ANYWHERE
    ∧ combineDir [OUTPUT_FILENAME] "" true
        (.mk [] [(".git", .mk [("ignored.txt", fileOf "secret")] [])])
      = combineDir [OUTPUT_FILENAME] "" true (.mk [] []) :=
  ⟨by decide,
   c4_anywhere_pruned [OUTPUT_FILENAME] "" true [] [] []
     ".git" (.mk [("ignored.txt", fileOf "secret")] []) (by decide)⟩

/-- C5: classification order. (1) an excluded filename is passed over;
(2) else a (case-insensitive) `.ipynb` extension routes to the notebook
extractor, regardless of the exclusion lists and of the sniff fields;
(3) else an excluded extension is skipped; (4) else the candidate is a
text file exactly when the 1024-byte sniff succeeds and finds no null
byte, and a sniff failure resolves to a skip, not a fatal error. -/
theorem c5_classify_order (ex : List String) (rel name : String) (f : FileData) :
    (name ∈ ex → processFile ex rel name f = ⟨"", 0, 0⟩)
    ∧ (name ∉ ex → lowerStr (suffix name) = ".ipynb" →
        processFile ex rel name f = emitContent rel (process_notebook f))
    ∧ (name ∉ ex → lowerStr (suffix name) ≠ ".ipynb" →
        lowerStr (suffix name) ∈ EXCLUDE_EXTENSIONS →
        processFile ex rel name f = ⟨"", 0, 1⟩)
    ∧ (name ∉ ex → lowerStr (suffix name) ∉ EXCLUDE_EXTENSIONS →
        is_likely_text_file name f
          = (!f.sniffErr && !((f.bytes.take 1024).contains 0)))
    ∧ (name ∉ ex → lowerStr (suffix name) ≠ ".ipynb" → f.sniffErr = true →
        processFile ex rel name f = ⟨"", 0, 1⟩) := by
  refine ⟨fun h => processFile_mem_exclude h, ?_, ?_, ?_, ?_⟩
  · intro h1 h2
    simp [processFile, h1, h2]
  · intro h1 h2 h3
    have hl : is_likely_text_file name f = false := by
      simp [is_likely_text_file, h3]
    simp [processFile, h1, h2, hl]
  · intro _ h2
    cases hs : f.sniffErr <;> simp [is_likely_text_file, h2, hs]
  · intro h1 h2 h3
    have hl : is_likely_text_file name f = false := by
      by_cases h4 : lowerStr (suffix name) ∈ EXCLUDE_EXTENSIONS
      · simp [is_likely_text_file, h4]
      · simp [is_likely_text_file, h4, h3]
    simp [processFile, h1, h2, hl]

/-- C5 witness: an `.ipynb` file routes to the notebook extractor, a
`.png` file is skipped by extension, and an ordinary `.txt` file's
verdict equals the sniff formula. -/
theorem c5_classify_order_witness :
    processFile [] "nb.ipynb" "nb.ipynb" (fileOf "x")
      = emitContent "nb.ipynb" (process_notebook (fileOf "x"))
    ∧ processFile [] "a.png" "a.png" (fileOf "x") = ⟨"", 0, 1⟩
    ∧ is_likely_text_file "a.txt" (fileOf "hi")
        = (!(fileOf "hi").sniffErr && !(((fileOf "hi").bytes.take 1024).contains 0)) :=
  ⟨(c5_classify_order [] "nb.ipynb" "nb.ipynb" (fileOf "x")).2.1 (by decide) (by decide),
   (c5_classify_order [] "a.png" "a.png" (fileOf "x")).2.2.1
     (by decide) (by decide) (by decide),
   (c5_classify_order [] "a.txt" "a.txt" (fileOf "hi")).2.2.2.1
     (by decide) (by decide)⟩

/-- C6: a directory name in the root-only exclusion set is pruned when it
is a direct child of the root (whatever its subtree), but the same name
deeper in the tree survives `keepDir` — provided it is not also excluded
by the anywhere set or a suffix pattern — and a non-root directory whose
sole child bears that name recurses into it. -/
theorem c6_root_only (ex : List String) (pref : String)
    (files : List (String × FileData)) (l1 l2 : List (String × Dir))
    (name : String) (sub : Dir)
    (h1 : name ∈ EXCLUDE_DIRS_ROOT_ONLY)
    (h2 : name ∉ EXCLUDE_DIRS_ANYWHERE)
    (h3 : ∀ p ∈ EXCLUDE_DIR_PATTERNS, strEndsWith name p = false) :
    (combineDir ex pref true (.mk files (l1 ++ (name, sub) :: l2))
       = combineDir ex pref true (.mk files (l1 ++ l2)))
    ∧ keepDir false name = true
    ∧ combineDir ex pref false (.mk [] [(name, sub)])
       = combineDir ex (relJoin pref name) false sub := by
  have hp : strEndsWith name ".egg-info" = false :=
    h3 ".egg-info" (by simp [EXCLUDE_DIR_PATTERNS])
  have hroot : keepDir true name = false := by
    simp [keepDir, h1]
  have hkeep : keepDir false name = true := by
    simp [keepDir, h2, EXCLUDE_DIR_PATTERNS, hp]
  refine ⟨combineDir_prune ex pref true files l1 l2 name sub hroot, hkeep, ?_⟩
  simp [combineDir, combineSubdirs, hkeep, mergeResults, String.append_empty]

/-- C6 witness: at the root, a `data` directory holding a file is pruned;
nested deeper it is kept and traversed. -/
theorem c6_root_only_witness :
    ("data" ∈ EXCLUDE_DIRS_ROOT_ONLY ∧ "data" ∉ EXCLUDE_DIRS_ANYWHERE)
    ∧ combineDir [] "" true (.mk [] [("data", .mk [("x.txt", fileOf "data")] [])])
        = combineDir [] "" true (.mk [] [])
    ∧ keepDir false "data" = true
    ∧ combineDir [] "src" false (.mk [] [("data", .mk [("x.txt", fileOf "data")] [])])
        = combineDir [] (relJoin "src" "data") false (.mk [("x.txt", fileOf "data")] []) :=
  ⟨⟨by decide, by decide⟩,
   (c6_root_only [] "" [] [] [] "data" (.mk [("x.txt", fileOf "data")] [])
      (by decide) (by decide) (by decide)).1,
   (c6_root_only [] "" [] [] [] "data" (.mk [("x.txt", fileOf "data")] [])
      (by decide) (by decide) (by decide)).2.1,
   (c6_root_only [] "src" [] [] [] "data" (.mk [("x.txt", fileOf "data")] [])
      (by decide) (by decide) (by decide)).2.2⟩

/-- C7: the writer emits the tagged block (opening tag with the relative
path, stripped content, closing tag, blank line) and counts the file
processed exactly when the extracted content strips to something
non-empty; absent or whitespace-only content emits nothing and counts the
file skipped — including a zero-byte file that passed classification as
plain text. -/
theorem c7_writer_contract (ex : List String) (rel name : String) (c : String)
    (f : FileData) :
    (pyStrip c ≠ "" →
      emitContent rel (some c)
        = ⟨"<" ++ rel ++ ">\n" ++ pyStrip c ++ "\n</" ++ rel ++ ">\n\n", 1, 0⟩)
    ∧ (pyStrip c = "" → emitContent rel (some c) = ⟨"", 0, 1⟩)
    ∧ emitContent rel none = ⟨"", 0, 1⟩
    ∧ (name ∉ ex → lowerStr (suffix name) ≠ ".ipynb" →
        is_likely_text_file name f = true → f.readErr = false → f.text = "" →
        processFile ex rel name f = ⟨"", 0, 1⟩) := by
  have hempty : pyStrip "" = "" := rfl
  refine ⟨fun h => by simp [emitContent, h], fun h => by simp [emitContent, h],
    rfl, ?_⟩
  intro h1 h2 h3 h4 h5
  simp [processFile, h1, h2, h3, h4, h5, emitContent, hempty]

/-- C7 witness: content `" hi "` is stripped and archived; a zero-byte
text file is counted skipped. -/
theorem c7_writer_contract_witness :
    emitContent "a/b.txt" (some " hi ") = ⟨"<a/b.txt>\nhi\n</a/b.txt>\n\n", 1, 0⟩
    ∧ processFile [] "e.txt" "e.txt" (fileOf "") = ⟨"", 0, 1⟩ :=
  ⟨(c7_writer_contract [] "a/b.txt" "e.txt" " hi " (fileOf "")).1 (by decide),
   (c7_writer_contract [] "e.txt" "e.txt" "" (fileOf "")).2.2.2
     (by decide) (by decide) (by decide) (by decide) (by decide)⟩

/-- C8: per-file errors are recovered locally: a read error on a
classified text file and a notebook parse failure each yield no content
and one skip, and the run itself never aborts for them — the only
modelled outcome that is not a normal completion is the output-stream
failure. -/
theorem c8_per_file_recovery (ex : List String) (rel name : String) (f : FileData) :
    (name ∉ ex → lowerStr (suffix name) ≠ ".ipynb" →
      is_likely_text_file name f = true → f.readErr = true →
      processFile ex rel name f = ⟨"", 0, 1⟩)
    ∧ (name ∉ ex → lowerStr (suffix name) = ".ipynb" → f.nb = none →
      processFile ex rel name f = ⟨"", 0, 1⟩)
    ∧ (∀ (t : Dir) (ofn : String) (b : Bool),
        (combine_project_files t ofn b).ok = false ↔ b = true) := by
  refine ⟨?_, ?_, ?_⟩
  · intro h1 h2 h3 h4
    simp [processFile, h1, h2, h3, h4]
  · intro h1 h2 h3
    simp [processFile, h1, h2, process_notebook, h3, emitContent]
  · intro t ofn b
    cases b <;> simp [combine_project_files]

/-- C8 witness: a text file whose read raises is skipped; an unparsable
notebook is skipped; an ordinary run completes normally. -/
theorem c8_per_file_recovery_witness :
    processFile [] "r.txt" "r.txt" ⟨[104], "hi", false, true, none⟩ = ⟨"", 0, 1⟩
    ∧ processFile [] "nb.ipynb" "nb.ipynb" (fileOf "x") = ⟨"", 0, 1⟩
    ∧ ((combine_project_files (.mk [("a.txt", fileOf "hi")] []) OUTPUT_FILENAME true).ok
        = false ↔ True) :=
  ⟨(c8_per_file_recovery [] "r.txt" "r.txt" ⟨[104], "hi", false, true, none⟩).1
     (by decide) (by decide) (by decide) (by decide),
   (c8_per_file_recovery [] "nb.ipynb" "nb.ipynb" (fileOf "x")).2.1
     (by decide) (by decide) (by decide),
   by
     have := (c8_per_file_recovery [] "x" "x" (fileOf "")).2.2
       (.mk [("a.txt", fileOf "hi")] []) OUTPUT_FILENAME true
     simpa using this⟩

/-- C10: a filename in the excluded set (including the output filename
injected at run start) is passed over before classification: nothing is
emitted and neither counter moves, so the summary does not account for
such files. -/
theorem c10_name_excluded (ex : List String) (rel name : String) (f : FileData)
    (ofn : String) :
    (name ∈ ex → processFile ex rel name f = ⟨"", 0, 0⟩)
    ∧ processFile (ofn :: EXCLUDE_FILES) rel ofn f = ⟨"", 0, 0⟩ :=
  ⟨fun h => processFile_mem_exclude h,
   processFile_mem_exclude (List.mem_cons_self ofn EXCLUDE_FILES)⟩

/-- C10 witness: `.DS_Store` and a custom output name are both passed
over with both counters unchanged. -/
theorem c10_name_excluded_witness :
    ".DS_Store" ∈ EXCLUDE_FILES
    ∧ processFile EXCLUDE_FILES ".DS_Store" ".DS_Store" (fileOf "junk") = ⟨"", 0, 0⟩
    ∧ processFile ("out.txt" :: EXCLUDE_FILES) "out.txt" "out.txt" (fileOf "z")
        = ⟨"", 0, 0⟩ :=
  ⟨by decide,
   (c10_name_excluded EXCLUDE_FILES ".DS_Store" ".DS_Store" (fileOf "junk") "o").1
     (by decide),
   (c10_name_excluded [] "out.txt" "out.txt" (fileOf "z") "out.txt").2⟩

/-- C9: the archiver is a pure function of the tree in this embedding, so
a fixed unchanged tree always yields the same bytes; the content of the
claim is that the second run is byte-identical even though the first
run's output file now sits in the root listing: a file named like the
output file, wherever it appears in the root's listing order and whatever
its content, leaves the whole run result unchanged, because the name is
excluded before classification and both the file order and the block
order are normalised by the ascending sorted traversal. -/
theorem c9_rerun_identical (l1 l2 : List (String × FileData))
    (ds : List (String × Dir)) (fd : FileData) (ofn : String) :
    combine_project_files (.mk (l1 ++ (ofn, fd) :: l2) ds) ofn false
      = combine_project_files (.mk (l1 ++ l2) ds) ofn false := by
  have hneutral :
      processFile (ofn :: EXCLUDE_FILES) (relJoin "" ofn) ofn fd = ⟨"", 0, 0⟩ :=
    processFile_mem_exclude (List.mem_cons_self ofn EXCLUDE_FILES)
  have hdir : combineDir (ofn :: EXCLUDE_FILES) "" true (.mk (l1 ++ (ofn, fd) :: l2) ds)
      = combineDir (ofn :: EXCLUDE_FILES) "" true (.mk (l1 ++ l2) ds) := by
    obtain ⟨P, S, h1, h2⟩ := insertionSort_split (ofn, fd) l2 l1
    simp only [combineDir]
    rw [h1, h2]
    simp only [List.map_append, List.map_cons, hneutral, List.append_assoc,
      List.cons_append]
    exact mergeResults_middle_neutral _ _
  simp [combine_project_files, hdir]
